import Mathlib

/-!
Verification of the Mindy Assistant context-assembly and knowledge-store
subsystem (`mindy_app.py` and the `core` store modules it calls).

The repository ships the presentation layer (`src/mindy_app.py`); the core
store modules (`core/file_manager`, `core/memory_store`,
`core/directives_store`, `core/kernel`) are imported by it but their source is
not part of the repository snapshot, so those operations are modelled from the
specification's contracts and each such definition is marked
`Modelled from the spec:`.  The upload handler of `main_app`, which is present
in `src/mindy_app.py`, is embedded directly from the source.
-/

namespace Mindy

/-! ## File Repository data model -/

/-- A file record of the File Repository: `filename` (unique), the single
`folder` it belongs to, `size` in bytes and a tag list. -/
structure FileRecord where
  filename : String
  folder : String
  size : Nat
  tags : List String
deriving Repr, DecidableEq

/-- Decoded content of a stored file: either decodable text (as characters) or
binary/undecodable bytes. -/
inductive FileContent where
  | text (chars : List Char)
  | binary
deriving Repr, DecidableEq

/-- State of the File Repository: the existing folder names, the file records
and the byte content addressed by filename. -/
structure RepoState where
  folders : List String
  files : List FileRecord
  contents : List (String × FileContent)
deriving Repr, DecidableEq

/-- The reserved default/root folder name that cannot be deleted. -/
def defaultFolder : String := "Geral"

/-- Reassign every file of a deleted folder to the default folder. -/
def reassignFiles (l : List FileRecord) (name : String) : List FileRecord :=
  l.map fun f => if f.folder = name then { f with folder := defaultFolder } else f

/-- Modelled from the spec: `core/file_manager.delete_folder` is not under
`src/`.  "`delete_folder(name) -> success/failure`: fails if `name` is the
default folder. Policy requirement: files contained in a deleted folder must
be reassigned to the default folder."  A nonexistent folder is a NotFound
failure per the error taxonomy. -/
def delete_folder (st : RepoState) (name : String) : Bool × RepoState :=
  if name = defaultFolder then (false, st)
  else if name ∈ st.folders then
    (true,
      { st with
        folders := st.folders.erase name,
        files := reassignFiles st.files name })
  else (false, st)

/-- `folder_count` aggregate stat, recomputed on demand. -/
def folder_count (st : RepoState) : Nat := st.folders.length

/-- `total_count` aggregate stat, recomputed on demand. -/
def total_count (st : RepoState) : Nat := st.files.length

end Mindy

namespace Mindy

theorem delete_folder_default (st : RepoState) :
    delete_folder st defaultFolder = (false, st) := by
  simp [delete_folder]

theorem filter_map_reassign (name : String) (l : List FileRecord)
    (hne : name ≠ defaultFolder) :
    ((reassignFiles l name).filter fun f => f.folder = defaultFolder).length
      = (l.filter fun f => f.folder = defaultFolder).length
        + (l.filter fun f => f.folder = name).length := by
  have hne' : defaultFolder ≠ name := Ne.symm hne
  induction l with
  | nil => simp [reassignFiles]
  | cons f l ih =>
    by_cases h : f.folder = name
    · have h2 : f.folder ≠ defaultFolder := by rw [h]; exact hne
      simp [reassignFiles, List.filter_cons, h, h2, hne, hne', ih]
      simp [reassignFiles] at ih
      omega
    · by_cases h2 : f.folder = defaultFolder
      · simp [reassignFiles, List.filter_cons, h, h2, hne, hne', ih]
        simp [reassignFiles] at ih
        omega
      · simp [reassignFiles, List.filter_cons, h, h2] at ih ⊢
        exact ih

/-- C1: `delete_folder` on the default folder "Geral" fails and leaves the
whole state unchanged; on an existing non-default folder it succeeds, no file
references the deleted folder afterwards, the files it contained are all
reassigned to the default folder, `folder_count` decreases by exactly 1 and
the total file count is unchanged. -/
theorem C1_delete_folder (st : RepoState) (name : String)
    (hmem : name ∈ st.folders) (hne : name ≠ defaultFolder) :
    delete_folder st defaultFolder = (false, st) ∧
    (delete_folder st name).1 = true ∧
    (∀ f ∈ (delete_folder st name).2.files, f.folder ≠ name) ∧
    ((delete_folder st name).2.files.filter fun f => f.folder = defaultFolder).length
      = (st.files.filter fun f => f.folder = defaultFolder).length
        + (st.files.filter fun f => f.folder = name).length ∧
    folder_count (delete_folder st name).2 + 1 = folder_count st ∧
    total_count (delete_folder st name).2 = total_count st := by
  have hd : delete_folder st name
      = (true, { st with
                 folders := st.folders.erase name,
                 files := reassignFiles st.files name }) := by
    simp [delete_folder, hne, hmem]
  refine ⟨delete_folder_default st, ?_, ?_, ?_, ?_, ?_⟩
  · rw [hd]
  · rw [hd]
    intro f hf
    simp only [reassignFiles, List.mem_map] at hf
    obtain ⟨g, _, hfg⟩ := hf
    by_cases h : g.folder = name
    · rw [if_pos h] at hfg
      rw [← hfg]
      exact Ne.symm hne
    · rw [if_neg h] at hfg
      rw [← hfg]
      exact h
  · rw [hd]
    exact filter_map_reassign name st.files hne
  · rw [hd]
    have hpos : 0 < st.folders.length := List.length_pos_of_mem hmem
    have := List.length_erase_of_mem hmem
    simp only [folder_count]
    omega
  · rw [hd]
    simp [total_count, reassignFiles]

/-- A concrete repository state used by witnesses of the File Repository
claims: two folders, a file in each. -/
def repoW : RepoState :=
  { folders := [defaultFolder, "Projects"],
    files := [{ filename := "a.txt", folder := "Projects", size := 10, tags := ["x"] },
              { filename := "b.txt", folder := defaultFolder, size := 5, tags := [] }],
    contents := [("a.txt", FileContent.text ['h', 'i']), ("b.txt", FileContent.binary)] }

theorem C1_delete_folder_witness :
    (delete_folder repoW "Projects").1 = true ∧
    folder_count (delete_folder repoW "Projects").2 + 1 = folder_count repoW :=
  ⟨(C1_delete_folder repoW "Projects" (by decide) (by decide)).2.1,
   (C1_delete_folder repoW "Projects" (by decide) (by decide)).2.2.2.2.1⟩

/-! ## Directive Store -/

/-- Lifecycle status of a directive: exactly one of active/archived holds. -/
inductive DStatus where
  | active
  | archived
deriving Repr, DecidableEq

/-- A Directive Store record: `id` (unique), `created_at`, `text`, ordered
`domains` and the lifecycle `status`. -/
structure Directive where
  id : Nat
  created_at : Nat
  text : String
  domains : List String
  status : DStatus
deriving Repr, DecidableEq

/-- Modelled from the spec: `core/directives_store.archive_directive` is not
under `src/`.  "`archive(id) -> (success flag, the archived Directive or
empty)`: flips status to archived if `id` exists and is active; returns
success=false and no record otherwise." -/
def archive_directive : List Directive → Nat → (Bool × Option Directive) × List Directive
  | [], _ => ((false, none), [])
  | d :: ds, i =>
    if d.id = i ∧ d.status = DStatus.active then
      ((true, some { d with status := DStatus.archived }),
       { d with status := DStatus.archived } :: ds)
    else
      let r := archive_directive ds i
      (r.1, d :: r.2)

theorem archive_no_active (ds : List Directive) (i : Nat)
    (h : ∀ d ∈ ds, ¬(d.id = i ∧ d.status = DStatus.active)) :
    archive_directive ds i = ((false, none), ds) := by
  induction ds with
  | nil => rfl
  | cons d ds ih =>
    have hd := h d (by simp)
    have ht : ∀ e ∈ ds, ¬(e.id = i ∧ e.status = DStatus.active) :=
      fun e he => h e (by simp [he])
    simp [archive_directive, hd, ih ht]

theorem archive_found (ds : List Directive) (d : Directive) (i : Nat)
    (hmem : d ∈ ds) (hid : d.id = i) (hact : d.status = DStatus.active)
    (hnodup : (ds.map fun e => e.id).Nodup) :
    (archive_directive ds i).1.1 = true ∧
    (archive_directive ds i).1.2 = some { d with status := DStatus.archived } ∧
    ∀ e ∈ (archive_directive ds i).2, e.id = i → e.status = DStatus.archived := by
  induction ds with
  | nil => cases hmem
  | cons a ds ih =>
    rw [List.map_cons] at hnodup
    have hnd := List.nodup_cons.mp hnodup
    rcases List.mem_cons.mp hmem with rfl | hmem'
    · have hc : d.id = i ∧ d.status = DStatus.active := ⟨hid, hact⟩
      simp only [archive_directive, if_pos hc]
      refine ⟨by trivial, by trivial, fun e he hei => ?_⟩
      rcases List.mem_cons.mp he with rfl | he'
      · rfl
      · exfalso
        apply hnd.1
        rw [hid, ← hei]
        exact List.mem_map_of_mem (fun e => e.id) he'
    · have han : a.id ≠ i := by
        intro hai
        apply hnd.1
        rw [hai, ← hid]
        exact List.mem_map_of_mem (fun e => e.id) hmem'
      have hc : ¬(a.id = i ∧ a.status = DStatus.active) := fun h => han h.1
      simp only [archive_directive, if_neg hc]
      obtain ⟨h1, h2, h3⟩ := ih hmem' hnd.2
      refine ⟨h1, h2, fun e he hei => ?_⟩
      rcases List.mem_cons.mp he with rfl | he'
      · exact absurd hei han
      · exact h3 e he' hei

/-- C2: archiving an existing active directive returns success=true together
with the archived record and flips its status to archived; a second archive of
the same id returns success=false with no record and leaves the store
unchanged, and in general any id with no active record yields
(false, none) and an unchanged store. -/
theorem C2_archive_directive (ds : List Directive) (d : Directive) (i : Nat)
    (hmem : d ∈ ds) (hid : d.id = i) (hact : d.status = DStatus.active)
    (hnodup : (ds.map fun e => e.id).Nodup) :
    (archive_directive ds i).1.1 = true ∧
    (archive_directive ds i).1.2 = some { d with status := DStatus.archived } ∧
    (∀ e ∈ (archive_directive ds i).2, e.id = i → e.status = DStatus.archived) ∧
    archive_directive (archive_directive ds i).2 i
      = ((false, none), (archive_directive ds i).2) ∧
    ∀ ds2 : List Directive,
      (∀ e ∈ ds2, ¬(e.id = i ∧ e.status = DStatus.active)) →
      archive_directive ds2 i = ((false, none), ds2) := by
  obtain ⟨h1, h2, h3⟩ := archive_found ds d i hmem hid hact hnodup
  refine ⟨h1, h2, h3, ?_, fun ds2 h => archive_no_active ds2 i h⟩
  apply archive_no_active
  intro e he h
  obtain ⟨hei, hea⟩ := h
  have harc := h3 e he hei
  rw [harc] at hea
  exact DStatus.noConfusion hea

/-- A concrete directive store used by the C2 witness. -/
def dirsW : List Directive :=
  [{ id := 1, created_at := 100, text := "focus ESG", domains := ["esg"],
     status := DStatus.active },
   { id := 2, created_at := 101, text := "focus IA", domains := ["ia"],
     status := DStatus.archived }]

theorem C2_archive_directive_witness :
    (archive_directive dirsW 1).1.1 = true ∧
    archive_directive (archive_directive dirsW 1).2 1
      = ((false, none), (archive_directive dirsW 1).2) :=
  ⟨(C2_archive_directive dirsW
      { id := 1, created_at := 100, text := "focus ESG", domains := ["esg"],
        status := DStatus.active } 1 (by simp [dirsW]) rfl rfl (by simp [dirsW])).1,
   (C2_archive_directive dirsW
      { id := 1, created_at := 100, text := "focus ESG", domains := ["esg"],
        status := DStatus.active } 1 (by simp [dirsW]) rfl rfl
      (by simp [dirsW])).2.2.2.1⟩

/-! ## Memory Store -/

/-- A Memory Store note: unique monotonically assigned `id`, timestamp `ts`,
`kind`, `source`, `tags` and the free-form `text`. -/
structure Note where
  id : Nat
  ts : Nat
  kind : String
  source : String
  tags : List String
  text : String
deriving Repr, DecidableEq

/-- The persisted memory document: the full `items` collection. -/
structure MemoryCollection where
  items : List Note
deriving Repr, DecidableEq

/-- The next id assigned by `add`: one more than the largest id in use, so it
is fresh and larger than every existing id. -/
def next_id (c : MemoryCollection) : Nat :=
  (c.items.map fun n => n.id).foldr max 0 + 1

/-- Modelled from the spec: `core/memory_store.add_memory` is not under
`src/`.  "`add(text, kind, tags, source) -> updated collection`: assigns a new
unique id and current timestamp, appends, persists, and returns the full
updated state." -/
def add_memory (c : MemoryCollection) (text kind : String) (tags : List String)
    (source : String) (now : Nat) : MemoryCollection :=
  { items := c.items ++
      [{ id := next_id c, ts := now, kind := kind, source := source,
         tags := tags, text := text }] }

/-- Modelled from the spec: `core/memory_store.clear_memory` is not under
`src/`.  "`clear() -> empty collection`: destructively removes all notes." -/
def clear_memory : MemoryCollection := { items := [] }

/-- Modelled from the spec: individual removal by id ("notes are ...
individually removable by id"); the core module is not under `src/`. -/
def remove_memory (c : MemoryCollection) (i : Nat) : MemoryCollection :=
  { items := c.items.filter fun n => n.id ≠ i }

/-- Memory states reachable through the authoritative id-changing operations
(empty/first use, add, clear, remove-by-id). -/
inductive Reachable : MemoryCollection → Prop where
  | empty : Reachable clear_memory
  | add (c : MemoryCollection) (text kind : String) (tags : List String)
      (source : String) (now : Nat) :
      Reachable c → Reachable (add_memory c text kind tags source now)
  | clear (c : MemoryCollection) : Reachable c → Reachable clear_memory
  | remove (c : MemoryCollection) (i : Nat) :
      Reachable c → Reachable (remove_memory c i)

/-- The id-ordering invariant: ids strictly increase in insertion order. -/
def idsOrdered (c : MemoryCollection) : Prop :=
  c.items.Pairwise fun m n => m.id < n.id

theorem le_foldr_max (l : List Nat) (a : Nat) (h : a ∈ l) :
    a ≤ l.foldr max 0 := by
  induction l with
  | nil => cases h
  | cons b l ih =>
    rcases List.mem_cons.mp h with rfl | h'
    · exact le_max_left _ _
    · exact (ih h').trans (le_max_right _ _)

theorem idsOrdered_add (c : MemoryCollection) (h : idsOrdered c)
    (text kind : String) (tags : List String) (source : String) (now : Nat) :
    idsOrdered (add_memory c text kind tags source now) := by
  unfold idsOrdered add_memory
  rw [List.pairwise_append]
  refine ⟨h, List.pairwise_singleton _ _, ?_⟩
  intro m hm n hn
  simp only [List.mem_singleton] at hn
  subst hn
  have hle : m.id ≤ (c.items.map fun k => k.id).foldr max 0 :=
    le_foldr_max _ _ (List.mem_map_of_mem (fun k => k.id) hm)
  simp only [next_id]
  omega

theorem reachable_idsOrdered (c : MemoryCollection) (h : Reachable c) :
    idsOrdered c := by
  induction h with
  | empty => exact List.Pairwise.nil
  | add c text kind tags source now _ ih =>
      exact idsOrdered_add c ih text kind tags source now
  | clear c _ _ => exact List.Pairwise.nil
  | remove c i _ ih => exact List.Pairwise.filter _ ih

/-- C3: from any reachable memory state, `add` preserves reachability, the
resulting ids are strictly increasing in insertion order (hence pairwise
unique and non-decreasing), and `add` returns the full updated collection —
the previous items with the new note appended, so the new note is a member of
the result. -/
theorem C3_memory_add_ids (c : MemoryCollection) (h : Reachable c)
    (text kind : String) (tags : List String) (source : String) (now : Nat) :
    Reachable (add_memory c text kind tags source now) ∧
    ((add_memory c text kind tags source now).items.map fun n => n.id).Pairwise (· < ·) ∧
    (add_memory c text kind tags source now).items
      = c.items ++
        [{ id := next_id c, ts := now, kind := kind, source := source,
           tags := tags, text := text }] ∧
    { id := next_id c, ts := now, kind := kind, source := source,
      tags := tags, text := text } ∈ (add_memory c text kind tags source now).items := by
  have hr : Reachable (add_memory c text kind tags source now) :=
    Reachable.add c text kind tags source now h
  have hord : idsOrdered (add_memory c text kind tags source now) :=
    reachable_idsOrdered _ hr
  refine ⟨hr, ?_, rfl, ?_⟩
  · rw [List.pairwise_map]
    exact hord
  · simp [add_memory]

theorem C3_memory_add_ids_witness :
    ((add_memory (add_memory clear_memory "a" "manual" ["esg"] "user" 1)
        "b" "auto" ["ia"] "kernel" 2).items.map fun n => n.id).Pairwise (· < ·) :=
  (C3_memory_add_ids (add_memory clear_memory "a" "manual" ["esg"] "user" 1)
    (Reachable.add clear_memory "a" "manual" ["esg"] "user" 1 Reachable.empty)
    "b" "auto" ["ia"] "kernel" 2).2.1

/-- Persisted backing state of the Memory Store: absent document, unparsable
document, or a valid persisted collection. -/
inductive Backing where
  | absent
  | corrupt (raw : String)
  | valid (c : MemoryCollection)
deriving Repr, DecidableEq

/-- Raw read of the persisted document: absent or corrupt backing is a
StorageFailure. -/
def readBacking : Backing → Except String MemoryCollection
  | Backing.absent => Except.error "file not found"
  | Backing.corrupt _ => Except.error "invalid JSON"
  | Backing.valid c => Except.ok c

/-- Modelled from the spec: `core/memory_store.load_memory` is not under
`src/`.  "`load() -> {items: sequence of Note}`: reads the full persisted
collection; if the backing store is absent or corrupt, returns an empty
collection rather than failing." -/
def load_memory (b : Backing) : MemoryCollection :=
  match readBacking b with
  | Except.ok c => c
  | Except.error _ => { items := [] }

/-- C4: `load` never fails — it is total over every backing-store state,
returns the empty collection `{items: []}` on absent or corrupt backing, and
returns the persisted collection unchanged on valid backing. -/
theorem C4_load_memory_total :
    load_memory Backing.absent = { items := [] } ∧
    (∀ raw : String, load_memory (Backing.corrupt raw) = { items := [] }) ∧
    ∀ c : MemoryCollection, load_memory (Backing.valid c) = c :=
  ⟨rfl, fun _ => rfl, fun _ => rfl⟩

/-! ## Kernel -/

/-- A conversation turn owned by the presentation layer. -/
structure ChatTurn where
  role : String
  content : String
deriving Repr, DecidableEq

/-- The transient intent descriptor returned with every reply.  Confidence is
modelled on a 0–100 integer scale. -/
structure Intent where
  action : String
  referenced_files : List String
  domains : List String
  confidence : Nat
deriving Repr, DecidableEq

/-- Diagnostic metadata attached to every kernel reply. -/
structure Meta where
  generation_failed : Bool
  included_files : List String
deriving Repr, DecidableEq

/-- The kernel's reply record. -/
structure KernelResult where
  reply : String
  intent : Intent
  meta : Meta
deriving Repr, DecidableEq

/-- Modelled from the spec: the Intent Resolver (§4.5) lives in `core`, not
under `src/`: active filenames literally mentioned in the utterance populate
`referenced_files`; a configurable keyword→domain table populates `domains`;
the action distinguishes file-grounded from general questions. -/
def resolveIntent (table : List (String × String)) (text : String)
    (active : List String) : Intent :=
  let refs := active.filter fun f => 2 ≤ (text.splitOn f).length
  { action := if refs.isEmpty then "general_question" else "file_grounded_question",
    referenced_files := refs,
    domains := (table.filter fun p => 2 ≤ (text.splitOn p.1).length).map fun p => p.2,
    confidence := if refs.isEmpty then 50 else 90 }

/-- Modelled from the spec: the Context Assembler (§4.4) lives in `core`, not
under `src/`: it composes the conversation turns, the notes, the active
directives and the selected files' text into one context bundle. -/
def assembleContext (history : List ChatTurn) (mem : MemoryCollection)
    (directives : List Directive) (fileTexts : List (String × String)) : String :=
  String.join (history.map fun t => t.role ++ ": " ++ t.content ++ "\n")
    ++ String.join (mem.items.map fun n => n.text ++ "\n")
    ++ String.join
        (((directives.filter fun d => d.status = DStatus.active)).map
          fun d => d.text ++ "\n")
    ++ String.join (fileTexts.map fun p => p.1 ++ ":\n" ++ p.2 ++ "\n")

/-- The user-visible reply produced when text generation fails. -/
def genFailureReply (e : String) : String :=
  "⚠️ Erro ao gerar resposta: " ++ e

/-- Modelled from the spec: `core/kernel.processar_mensagem` is not under
`src/` (§4.6, §6): resolve the intent, assemble the context, invoke the
opaque text-generation capability (the `gen` parameter); a generation failure
is caught and converted to a user-visible error reply whose meta flags
`generation_failed=true`, never propagated as a crash. -/
def processar_mensagem (gen : String → String → Nat → Except String String)
    (domainTable : List (String × String)) (user_text : String)
    (chat_history : List ChatTurn) (temperature : Nat)
    (mem : MemoryCollection) (directives : List Directive)
    (fileTexts : List (String × String)) (arquivos_ativos : List String) :
    KernelResult :=
  let intent := resolveIntent domainTable user_text arquivos_ativos
  let ctx := assembleContext chat_history mem directives fileTexts
  match gen ctx user_text temperature with
  | Except.ok text =>
      { reply := text, intent := intent,
        meta := { generation_failed := false, included_files := arquivos_ativos } }
  | Except.error e =>
      { reply := genFailureReply e, intent := intent,
        meta := { generation_failed := true, included_files := arquivos_ativos } }

theorem genFailureReply_ne_empty (e : String) : genFailureReply e ≠ "" := by
  intro h
  have hlen : (genFailureReply e).length = 0 := by rw [h]; rfl
  rw [genFailureReply, String.length_append] at hlen
  have hp : 0 < ("⚠️ Erro ao gerar resposta: " : String).length := by decide
  omega

/-- C5: when the text-generation capability fails, `processar_mensagem` still
returns a well-formed reply record: `meta.generation_failed = true`, the reply
is the non-empty user-visible error message, and the intent descriptor is
still the resolved intent — the failure never escapes as a crash. -/
theorem C5_generation_failure
    (gen : String → String → Nat → Except String String)
    (domainTable : List (String × String)) (user_text : String)
    (chat_history : List ChatTurn) (temperature : Nat)
    (mem : MemoryCollection) (directives : List Directive)
    (fileTexts : List (String × String)) (arquivos_ativos : List String)
    (e : String)
    (h : gen (assembleContext chat_history mem directives fileTexts) user_text
          temperature = Except.error e) :
    (processar_mensagem gen domainTable user_text chat_history temperature
        mem directives fileTexts arquivos_ativos).meta.generation_failed = true ∧
    (processar_mensagem gen domainTable user_text chat_history temperature
        mem directives fileTexts arquivos_ativos).reply = genFailureReply e ∧
    (processar_mensagem gen domainTable user_text chat_history temperature
        mem directives fileTexts arquivos_ativos).reply ≠ "" ∧
    (processar_mensagem gen domainTable user_text chat_history temperature
        mem directives fileTexts arquivos_ativos).intent
      = resolveIntent domainTable user_text arquivos_ativos := by
  simp only [processar_mensagem, h]
  exact ⟨True.intro, True.intro, genFailureReply_ne_empty e, True.intro⟩

theorem C5_generation_failure_witness :
    (processar_mensagem (fun _ _ _ => Except.error "timeout") [] "oi" [] 0
        clear_memory [] [] []).meta.generation_failed = true ∧
    (processar_mensagem (fun _ _ _ => Except.error "timeout") [] "oi" [] 0
        clear_memory [] [] []).reply ≠ "" :=
  ⟨(C5_generation_failure (fun _ _ _ => Except.error "timeout") [] "oi" [] 0
      clear_memory [] [] [] "timeout" rfl).1,
   (C5_generation_failure (fun _ _ _ => Except.error "timeout") [] "oi" [] 0
      clear_memory [] [] [] "timeout" rfl).2.2.1⟩

/-! ## File Repository: content access, tags, delete, move -/

/-- Failure values of the File Repository content accessor. -/
inductive FMError where
  | notFound
  | undecodable
deriving Repr, DecidableEq

/-- Look up the stored byte content of a filename. -/
def lookupContent (st : RepoState) (name : String) : Option FileContent :=
  (st.contents.find? fun p => p.1 = name).map fun p => p.2

/-- Modelled from the spec: `core/file_manager.get_file_content` is not under
`src/`.  "`get_file_content(filename, max_chars) -> text or failure`: returns
a prefix of decoded text content up to `max_chars`; binary/undecodable
content returns failure rather than garbage"; a missing filename is a
NotFound failure, never a raised fault. -/
def get_file_content (st : RepoState) (name : String) (max_chars : Nat) :
    Except FMError (List Char) :=
  match lookupContent st name with
  | none => Except.error FMError.notFound
  | some FileContent.binary => Except.error FMError.undecodable
  | some (FileContent.text s) => Except.ok (s.take max_chars)

/-- C6: `get_file_content` on a missing filename returns the NotFound failure
value (a total function, so it never raises); on a present text file it
returns a prefix of the decoded text of length at most `max_chars`; on binary
content it returns the undecodable failure rather than garbage. -/
theorem C6_get_file_content (st : RepoState) (name : String) (max_chars : Nat) :
    (lookupContent st name = none →
      get_file_content st name max_chars = Except.error FMError.notFound) ∧
    (lookupContent st name = some FileContent.binary →
      get_file_content st name max_chars = Except.error FMError.undecodable) ∧
    ∀ s : List Char, lookupContent st name = some (FileContent.text s) →
      get_file_content st name max_chars = Except.ok (s.take max_chars) ∧
      (s.take max_chars).length ≤ max_chars ∧
      s.take max_chars <+: s := by
  refine ⟨fun h => ?_, fun h => ?_, fun s h => ?_⟩
  · simp [get_file_content, h]
  · simp [get_file_content, h]
  · refine ⟨by simp [get_file_content, h], ?_, List.take_prefix _ _⟩
    rw [List.length_take]
    exact min_le_left _ _

theorem C6_get_file_content_witness :
    get_file_content repoW "missing.txt" 1000 = Except.error FMError.notFound ∧
    get_file_content repoW "a.txt" 1000 = Except.ok ['h', 'i'] ∧
    get_file_content repoW "b.txt" 1000 = Except.error FMError.undecodable :=
  ⟨(C6_get_file_content repoW "missing.txt" 1000).1 (by decide),
   ((C6_get_file_content repoW "a.txt" 1000).2.2 ['h', 'i'] (by decide)).1,
   (C6_get_file_content repoW "b.txt" 1000).2.1 (by decide)⟩

/-- Union-merge the given tags into the record with the given filename. -/
def mergeTags (l : List FileRecord) (name : String) (tags : List String) :
    List FileRecord :=
  l.map fun f => if f.filename = name then { f with tags := f.tags ∪ tags } else f

/-- Modelled from the spec: `core/file_manager.add_file_tags` is not under
`src/`.  "`add_file_tags(filename, tags) -> success/failure`: merges (set
union) with existing tags; does not remove tags not mentioned — adding is
additive"; fails if the file is not found. -/
def add_file_tags (st : RepoState) (name : String) (tags : List String) :
    Bool × RepoState :=
  if st.files.any fun f => f.filename = name then
    (true, { st with files := mergeTags st.files name tags })
  else (false, st)

/-- C7: on an existing file `add_file_tags` succeeds and is additive — every
record keeps all of its previous tags (the new tag set is a superset of the
old one), and the targeted record additionally contains every given tag. -/
theorem C7_add_file_tags (st : RepoState) (name : String) (tags : List String)
    (f : FileRecord) (hf : f ∈ st.files) (hname : f.filename = name) :
    (add_file_tags st name tags).1 = true ∧
    ∀ g ∈ st.files,
      (if g.filename = name then { g with tags := g.tags ∪ tags } else g)
        ∈ (add_file_tags st name tags).2.files ∧
      g.tags ⊆ (if g.filename = name then { g with tags := g.tags ∪ tags } else g).tags ∧
      (g.filename = name →
        tags ⊆ (if g.filename = name then { g with tags := g.tags ∪ tags } else g).tags) := by
  have hany : (st.files.any fun f => f.filename = name) = true := by
    rw [List.any_eq_true]
    exact ⟨f, hf, by simp [hname]⟩
  have hd : add_file_tags st name tags
      = (true, { st with files := mergeTags st.files name tags }) := by
    simp [add_file_tags, hany]
  refine ⟨by rw [hd], fun g hg => ⟨?_, ?_, ?_⟩⟩
  · rw [hd]
    exact List.mem_map_of_mem _ hg
  · by_cases h : g.filename = name
    · rw [if_pos h]
      intro x hx
      exact List.mem_union_iff.mpr (Or.inl hx)
    · rw [if_neg h]
      exact fun x hx => hx
  · intro h
    rw [if_pos h]
    intro x hx
    exact List.mem_union_iff.mpr (Or.inr hx)

theorem C7_add_file_tags_witness :
    (add_file_tags repoW "a.txt" ["y"]).1 = true :=
  (C7_add_file_tags repoW "a.txt" ["y"]
    { filename := "a.txt", folder := "Projects", size := 10, tags := ["x"] }
    (by simp [repoW]) rfl).1

/-- Modelled from the spec: `core/file_manager.delete_file` is not under
`src/`.  "`delete_file(filename) -> success/failure`: removes record and
content; fails if not found." -/
def delete_file (st : RepoState) (name : String) : Bool × RepoState :=
  if st.files.any fun f => f.filename = name then
    (true,
      { st with
        files := st.files.filter fun f => f.filename ≠ name,
        contents := st.contents.filter fun p => p.1 ≠ name })
  else (false, st)

/-- Modelled from the spec: `core/file_manager.list_user_files` is not under
`src/`: "returns all files, or only those in `folder` if given, ... sort by
filename ascending for determinism". -/
def list_user_files (st : RepoState) (folder : Option String) :
    List FileRecord :=
  (match folder with
   | none => st.files
   | some fo => st.files.filter fun f => f.folder = fo).mergeSort
    fun a b => a.filename ≤ b.filename

/-- The chat tab's recomputation of the active-file selection
(`src/mindy_app.py`, the `novos_ativos` loop of `main_app`): every rerun
rebuilds the selection from the checkboxes rendered for the currently listed
files, so the selection only ever contains listed filenames. -/
def recompute_ativos (allFiles : List FileRecord) (checked : String → Bool) :
    List String :=
  (allFiles.filter fun f => checked f.filename).map fun f => f.filename

/-- C8: deleting an existing file succeeds and removes its record and its
content from all stores; afterwards no checkbox state can put the deleted
filename back into the recomputed active-for-chat selection; deleting a
filename that is not present fails and leaves the state unchanged. -/
theorem C8_delete_file (st : RepoState) (name : String) (f : FileRecord)
    (hf : f ∈ st.files) (hname : f.filename = name) :
    (delete_file st name).1 = true ∧
    (∀ g ∈ (delete_file st name).2.files, g.filename ≠ name) ∧
    (∀ p ∈ (delete_file st name).2.contents, p.1 ≠ name) ∧
    (∀ checked : String → Bool,
      name ∉ recompute_ativos (list_user_files (delete_file st name).2 none) checked) ∧
    ∀ st2 : RepoState, (∀ g ∈ st2.files, g.filename ≠ name) →
      delete_file st2 name = (false, st2) := by
  have hany : (st.files.any fun f => f.filename = name) = true := by
    rw [List.any_eq_true]
    exact ⟨f, hf, by simp [hname]⟩
  have hd : (delete_file st name).1 = true ∧
      (delete_file st name).2.files = st.files.filter (fun f => f.filename ≠ name) ∧
      (delete_file st name).2.contents = st.contents.filter fun p => p.1 ≠ name := by
    simp [delete_file, hany]
  have hfiles : ∀ g ∈ (delete_file st name).2.files, g.filename ≠ name := by
    rw [hd.2.1]
    intro g hg
    have := List.of_mem_filter hg
    simpa using this
  refine ⟨hd.1, hfiles, ?_, ?_, ?_⟩
  · rw [hd.2.2]
    intro p hp
    have := List.of_mem_filter hp
    simpa using this
  · intro checked hmem
    simp only [recompute_ativos, List.mem_map] at hmem
    obtain ⟨g, hg, hgname⟩ := hmem
    have hg2 : g ∈ list_user_files (delete_file st name).2 none :=
      List.mem_of_mem_filter hg
    have hg3 : g ∈ (delete_file st name).2.files := by
      simpa using (List.mergeSort_perm _ _).mem_iff.mp hg2
    exact hfiles g hg3 hgname
  · intro st2 h2
    have : (st2.files.any fun g => g.filename = name) = false := by
      rw [List.any_eq_false]
      intro g hg
      simp [h2 g hg]
    simp [delete_file, this]

theorem C8_delete_file_witness :
    (delete_file repoW "a.txt").1 = true ∧
    ∀ checked : String → Bool,
      "a.txt" ∉ recompute_ativos (list_user_files (delete_file repoW "a.txt").2 none) checked :=
  ⟨(C8_delete_file repoW "a.txt"
      { filename := "a.txt", folder := "Projects", size := 10, tags := ["x"] }
      (by simp [repoW]) rfl).1,
   (C8_delete_file repoW "a.txt"
      { filename := "a.txt", folder := "Projects", size := 10, tags := ["x"] }
      (by simp [repoW]) rfl).2.2.2.1⟩

/-- Relocate the record with the given filename to the target folder. -/
def moveFiles (l : List FileRecord) (name target : String) : List FileRecord :=
  l.map fun f => if f.filename = name then { f with folder := target } else f

/-- Modelled from the spec: `core/file_manager.move_file_to_folder` is not
under `src/`.  "`move_file_to_folder(filename, target_folder) ->
success/failure`: fails if file or folder does not exist; otherwise
idempotent (moving to the current folder is a no-op success)." -/
def move_file_to_folder (st : RepoState) (name target : String) :
    Bool × RepoState :=
  if st.files.any fun f => f.filename = name then
    if target ∈ st.folders then
      (true, { st with files := moveFiles st.files name target })
    else (false, st)
  else (false, st)

theorem moveFiles_id (l : List FileRecord) (name target : String)
    (h : ∀ g ∈ l, g.filename = name → g.folder = target) :
    moveFiles l name target = l := by
  induction l with
  | nil => rfl
  | cons a l ih =>
    unfold moveFiles at ih ⊢
    simp only [List.map_cons]
    congr 1
    · by_cases ha : a.filename = name
      · rw [if_pos ha, ← h a (by simp) ha]
      · rw [if_neg ha]
    · exact ih fun g hg hgn => h g (by simp [hg]) hgn

/-- C9: moving an existing file to its own (existing) current folder succeeds
and is a complete no-op — the state, hence the file's folder and size, is
unchanged; the move fails with an unchanged state when the file does not
exist or when the target folder does not exist. -/
theorem C9_move_file_idempotent (st : RepoState) (name target : String)
    (f : FileRecord) (hf : f ∈ st.files) (hname : f.filename = name)
    (htf : target ∈ st.folders)
    (hcur : ∀ g ∈ st.files, g.filename = name → g.folder = target) :
    move_file_to_folder st name target = (true, st) ∧
    (∀ st2 : RepoState, (∀ g ∈ st2.files, g.filename ≠ name) →
      move_file_to_folder st2 name target = (false, st2)) ∧
    ∀ st3 : RepoState, target ∉ st3.folders →
      move_file_to_folder st3 name target = (false, st3) := by
  refine ⟨?_, ?_, ?_⟩
  · have hany : (st.files.any fun g => g.filename = name) = true := by
      rw [List.any_eq_true]
      exact ⟨f, hf, by simp [hname]⟩
    simp [move_file_to_folder, hany, htf, moveFiles_id st.files name target hcur]
  · intro st2 h2
    have : (st2.files.any fun g => g.filename = name) = false := by
      rw [List.any_eq_false]
      intro g hg
      simp [h2 g hg]
    simp [move_file_to_folder, this]
  · intro st3 h3
    by_cases hany : (st3.files.any fun g => g.filename = name) = true
    · simp [move_file_to_folder, hany, h3]
    · simp only [Bool.not_eq_true] at hany
      simp [move_file_to_folder, hany]

theorem C9_move_file_idempotent_witness :
    move_file_to_folder repoW "a.txt" "Projects" = (true, repoW) :=
  (C9_move_file_idempotent repoW "a.txt" "Projects"
    { filename := "a.txt", folder := "Projects", size := 10, tags := ["x"] }
    (by simp [repoW]) rfl (by simp [repoW])
    (by
      intro g hg hgn
      simp [repoW] at hg
      rcases hg with rfl | rfl
      · rfl
      · exact absurd hgn (by decide))).1

/-! ## Upload handler of `main_app` (embedded from `src/mindy_app.py`) -/

/-- Observable effects of the files-tab upload handler. -/
inductive UploadEffect where
  | diskWrite (name : String)
  | moveFile (name folder : String)
  | successMsg (name folder : String)
  | rerunApp
deriving Repr, DecidableEq

/-- Straight-line embedding of the upload loop of `main_app`
(`src/mindy_app.py:569-580`): for each uploaded file the handler first writes
the bytes under `USER_FILES_PATH`, then reads the local variable
`selected_folder` to decide on a folder move and show the success message.
`env` is the binding state of that local when the loop runs; reading it
unbound raises `UnboundLocalError`, modelled by stopping with `true` in the
second component. -/
def uploadBlock : List String → Option String → List UploadEffect × Bool
  | [], _ => ([], false)
  | name :: _, none => ([UploadEffect.diskWrite name], true)
  | name :: rest, some folder =>
      let pre := UploadEffect.diskWrite name ::
        (if folder ≠ "Geral" then [UploadEffect.moveFile name folder] else []) ++
        [UploadEffect.successMsg name folder, UploadEffect.rerunApp]
      let r := uploadBlock rest (some folder)
      (pre ++ r.1, r.2)

/-- In `main_app` the only assignment to `selected_folder`
(`src/mindy_app.py:590`) comes after the upload block
(`src/mindy_app.py:569-580`), so the Python local is still unbound when the
block executes. -/
def mainAppUploadRun (uploaded : List String) : List UploadEffect × Bool :=
  uploadBlock uploaded none

/-- C10: for every non-empty uploaded file list, the handler writes the first
file's bytes to disk and then raises an unbound-local error on reading
`selected_folder`, so the only emitted effect is that disk write — no
folder-move effect and no success message is ever reachable. -/
theorem C10_upload_unbound_local (name : String) (rest : List String) :
    (mainAppUploadRun (name :: rest)).2 = true ∧
    (mainAppUploadRun (name :: rest)).1 = [UploadEffect.diskWrite name] ∧
    (∀ n fo, UploadEffect.moveFile n fo ∉ (mainAppUploadRun (name :: rest)).1) ∧
    ∀ n fo, UploadEffect.successMsg n fo ∉ (mainAppUploadRun (name :: rest)).1 := by
  refine ⟨rfl, rfl, ?_, ?_⟩ <;>
    · intro n fo h
      simp [mainAppUploadRun, uploadBlock] at h

end Mindy
